import Mathlib

/-!
Verification of the local-KV resolution / access / search core of the
cloudflare-kv-explorer extension, as a shallow embedding in Lean 4.

The embedding models:
  * the `KVDataProvider` class (namespace resolution by content probing,
    entry listing, single-value fetch) — `findDatabaseForNamespace`,
    `getKVData`, `getValue`, `queryEntries`, `getBlobId`, `getEntryCount`,
    `getSampleBlobIds`, `getDatabase`, `dispose`-relevant caches;
  * the `KVTreeProvider` search logic — `fuzzyMatch`, the per-entry match
    step of `performSearch`, the per-entry match-and-preview step of the
    quick-pick live search handler.

JavaScript strings are modelled by Lean `String` (a wrapper around
`List Char`); all character-level operations (`toLowerCase`, `endsWith`,
`includes`, `substring`, regex replacement of the two-character sequence
backslash-n) are given explicit executable definitions over `.data` so
that concrete instances evaluate in the kernel.

Filesystem paths are lists of path segments (`path.join a b = a ++ [b]`).
The outside world (filesystem plus the sqlite layer) is a record of pure
functions; async suspension points play no role for the properties proved
here because the source performs no interleaved mutation (single-threaded
model, spec section 5).  Each sqlite statement execution may independently
fail; a `Database` therefore carries the table contents (rows in insertion
order) together with one failure flag per statement used by the source.
`SELECT ... ORDER BY key` is modelled as sorting by the BINARY
(code-point) collation; `SELECT ... LIMIT n` without ORDER BY returns an
unspecified-order bounded sample, modelled as the first `n` stored rows.
-/

/-! ## JavaScript string primitives -/

/-- JS `String.prototype.toLowerCase`, modelled character-wise. -/
def jsToLower (s : String) : String := ⟨s.data.map Char.toLower⟩

/-- JS `String.prototype.endsWith`. -/
def jsEndsWith (s search : String) : Bool :=
  List.isPrefixOf search.data.reverse s.data.reverse

/-- JS `String.prototype.includes`: substring containment. -/
def jsIncludes (s search : String) : Bool :=
  decide (search.data <:+: s.data)

/-! ## Data model (KVDataProvider.ts) -/

/-- A row of the `_mf_entries` table: key, blob id, optional expiration
(epoch ms) and optional metadata.  Mirrors `interface KVEntry`. -/
structure KVEntry where
  key : String
  blobId : String
  expiration : Option Int := none
  metadata : Option String := none
deriving Repr, DecidableEq

/-- Result record of `getKVData`; mirrors `interface KVData` (the source
field `namespace` is a Lean keyword, rendered here as `nspace`). -/
structure KVData where
  nspace : String
  entries : List KVEntry
deriving Repr, DecidableEq

/-- A filesystem path, as the list of segments joined by `path.join`. -/
abbrev FilePathSegs := List String

/-- One candidate sqlite database: its `_mf_entries` rows in insertion
order, plus one independent failure flag per SQL statement the source
executes against it (a corrupt store can fail any individual query). -/
structure Database where
  rows : List KVEntry
  listFails : Bool := false
  getFails : Bool := false
  countFails : Bool := false
  sampleFails : Bool := false
deriving Repr, DecidableEq

/-- The filesystem as seen through the three `fs` operations the source
uses: `fs.access` (true means the promise resolves), `fs.readdir`
(`none` means it throws) and `fs.readFile` (`none` means it throws). -/
structure FSModel where
  access : FilePathSegs → Bool
  readdir : FilePathSegs → Option (List String)
  readFile : FilePathSegs → Option String

/-- The ambient world: filesystem plus the database behind each path. -/
structure World where
  fs : FSModel
  dbs : FilePathSegs → Database

/-- Mutable state of a `KVDataProvider` instance: the open-handle cache
(`dbCache`, keyed by database path) and the resolution cache
(`namespaceDbMapping`, namespace id to database path). -/
structure ProviderState where
  dbCache : List FilePathSegs := []
  namespaceDbMapping : List (String × FilePathSegs) := []
deriving Repr, DecidableEq

/-- JS `Map.prototype.get` on an association list. -/
def mapGet (m : List (String × FilePathSegs)) (k : String) : Option FilePathSegs :=
  (m.find? (fun p => p.1 = k)).map (fun p => p.2)

/-- JS `Map.prototype.set`: replace in place, or append when absent. -/
def mapSet : List (String × FilePathSegs) → String → FilePathSegs → List (String × FilePathSegs)
  | [], k, v => [(k, v)]
  | (k1, v1) :: rest, k, v =>
      if k1 = k then (k, v) :: rest else (k1, v1) :: mapSet rest k v

/-- JS `Map.prototype.delete` (drop every pair with the given key). -/
def mapDelete (m : List (String × FilePathSegs)) (k : String) : List (String × FilePathSegs) :=
  m.filter (fun p => ¬ p.1 = k)

/-! ## The sqlite statement layer

Each helper of `KVDataProvider` runs one statement; the callback maps an
error to a harmless default.  The statement semantics: -/

/-- Code-point lexicographic order on strings-as-char-lists: the BINARY
collation SQLite applies to `ORDER BY key` on a TEXT column. -/
def keyLe : List Char → List Char → Bool
  | [], _ => true
  | _ :: _, [] => false
  | a :: as, b :: bs =>
      if a < b then true
      else if b < a then false
      else keyLe as bs

/-- Strict version of `keyLe`. -/
def keyLt : List Char → List Char → Bool
  | _, [] => false
  | [], _ :: _ => true
  | a :: as, b :: bs =>
      if a < b then true
      else if b < a then false
      else keyLt as bs

/-- Sorted insertion of a row by `keyLe` on its key. -/
def insertByKey (e : KVEntry) : List KVEntry → List KVEntry
  | [] => [e]
  | x :: xs => if keyLe e.key.data x.key.data then e :: x :: xs else x :: insertByKey e xs

/-- Sorting by the BINARY collation of the key column. -/
def sortByKey : List KVEntry → List KVEntry
  | [] => []
  | x :: xs => insertByKey x (sortByKey xs)

/-- Statement `SELECT key, blob_id, expiration, metadata FROM _mf_entries
ORDER BY key`. -/
def sqlSelectAllOrderByKey (db : Database) : Except Unit (List KVEntry) :=
  if db.listFails then .error () else .ok (sortByKey db.rows)

/-- Statement `SELECT blob_id FROM _mf_entries WHERE key = ?` run through
`db.get`: the first matching row, if any. -/
def sqlGetByKey (db : Database) (key : String) : Except Unit (Option KVEntry) :=
  if db.getFails then .error () else
    .ok (db.rows.find? (fun e => e.key = key))

/-- Statement `SELECT COUNT(*) FROM _mf_entries`. -/
def sqlCount (db : Database) : Except Unit Nat :=
  if db.countFails then .error () else .ok db.rows.length

/-- Statement `SELECT blob_id FROM _mf_entries LIMIT n` (no ORDER BY: an
unspecified-order bounded sample, modelled as the first `n` rows). -/
def sqlSampleBlobIds (db : Database) (limit : Nat) : Except Unit (List String) :=
  if db.sampleFails then .error () else
    .ok ((db.rows.take limit).map (fun e => e.blobId))

/-! ## KVDataProvider methods -/

/-- `getDatabase`: open-at-most-once handle cache.  Only the cache
membership is observable in the model. -/
def getDatabase (st : ProviderState) (dbPath : FilePathSegs) : ProviderState :=
  if dbPath ∈ st.dbCache then st
  else { st with dbCache := st.dbCache ++ [dbPath] }

/-- Value computed by `queryEntries`: rows ordered by key, or `[]` when
the statement errors (the error is logged, the promise resolves `[]`). -/
def queryEntriesVal (w : World) (dbPath : FilePathSegs) : List KVEntry :=
  match sqlSelectAllOrderByKey (w.dbs dbPath) with
  | .error _ => []
  | .ok rows => rows

/-- `queryEntries(dbPath)`: resolves the ordered rows (empty on error)
and records the opened handle. -/
def queryEntries (w : World) (st : ProviderState) (dbPath : FilePathSegs) :
    List KVEntry × ProviderState :=
  (queryEntriesVal w dbPath, getDatabase st dbPath)

/-- Value computed by `getBlobId`: `resolve(row?.blobId || null)` — `null`
on error, on a missing row, and (by JS falsiness) on an empty-string
blob id. -/
def blobIdVal (w : World) (dbPath : FilePathSegs) (key : String) : Option String :=
  match sqlGetByKey (w.dbs dbPath) key with
  | .error _ => none
  | .ok none => none
  | .ok (some row) => if row.blobId = "" then none else some row.blobId

/-- `getBlobId(dbPath, key)`. -/
def getBlobId (w : World) (st : ProviderState) (dbPath : FilePathSegs) (key : String) :
    Option String × ProviderState :=
  (blobIdVal w dbPath key, getDatabase st dbPath)

/-- Value computed by `getEntryCount`: `resolve(row?.count || 0)`, and
`resolve(0)` on error. -/
def entryCountVal (w : World) (dbPath : FilePathSegs) : Nat :=
  match sqlCount (w.dbs dbPath) with
  | .error _ => 0
  | .ok n => n

/-- `getEntryCount(dbPath)`. -/
def getEntryCount (w : World) (st : ProviderState) (dbPath : FilePathSegs) :
    Nat × ProviderState :=
  (entryCountVal w dbPath, getDatabase st dbPath)

/-- Value computed by `getSampleBlobIds`: the sampled blob ids, `[]` on
error. -/
def sampleBlobIdsVal (w : World) (dbPath : FilePathSegs) (limit : Nat) : List String :=
  match sqlSampleBlobIds (w.dbs dbPath) limit with
  | .error _ => []
  | .ok ids => ids

/-- `getSampleBlobIds(dbPath, limit)`. -/
def getSampleBlobIds (w : World) (st : ProviderState) (dbPath : FilePathSegs) (limit : Nat) :
    List String × ProviderState :=
  (sampleBlobIdsVal w dbPath limit, getDatabase st dbPath)

/-- The inner sampling loop of `findDatabaseForNamespace`: walk the
sampled blob ids in order; each iteration first increments
`checkedCount`, then tests `fs.access(nsBlobsPath/blobId)`; on success
increment `matchCount`, on failure `break`.  Returns
`(matchCount, checkedCount)`. -/
def checkBlobs (w : World) (nsBlobsPath : FilePathSegs) : List String → Nat × Nat
  | [] => (0, 0)
  | blobId :: rest =>
      if w.fs.access (nsBlobsPath ++ [blobId]) then
        let mc := checkBlobs w nsBlobsPath rest
        (mc.1 + 1, mc.2 + 1)
      else (0, 1)

/-- The acceptance test `matchCount === checkedCount && matchCount > 0`
applied to the result of the sampling loop. -/
def candidateMatches (w : World) (nsBlobsPath : FilePathSegs) (samples : List String) : Bool :=
  let mc := checkBlobs w nsBlobsPath samples
  (mc.1 == mc.2) && decide (0 < mc.1)

/-- The candidate loop of `findDatabaseForNamespace` (lines 136-180):
for each sqlite file in enumeration order, skip when the entry count is
zero, otherwise sample up to 3 blob ids and accept the candidate when
every checked sample exists; on acceptance cache the mapping. -/
def tryCandidates (w : World) (namespaceId : String)
    (miniflareDir nsBlobsPath : FilePathSegs) :
    List String → ProviderState → Option FilePathSegs × ProviderState
  | [], st => (none, st)
  | file :: rest, st =>
      let dbPath := miniflareDir ++ [file]
      let c := getEntryCount w st dbPath
      if c.1 = 0 then
        tryCandidates w namespaceId miniflareDir nsBlobsPath rest c.2
      else
        let s := getSampleBlobIds w c.2 dbPath 3
        if candidateMatches w nsBlobsPath s.1 then
          (some dbPath,
            { s.2 with
              namespaceDbMapping := mapSet s.2.namespaceDbMapping namespaceId dbPath })
        else
          tryCandidates w namespaceId miniflareDir nsBlobsPath rest s.2

/-- The non-cached part of `findDatabaseForNamespace` (lines 97-186):
require the miniflare candidate directory and the namespace blobs
directory to exist, enumerate `*.sqlite` files (excluding `-wal`/`-shm`
auxiliaries), and run the candidate loop.  A `readdir` error is caught
and yields not-found. -/
def probeForNamespace (w : World) (st : ProviderState) (kvPath : FilePathSegs)
    (namespaceId : String) : Option FilePathSegs × ProviderState :=
  let miniflareDir := kvPath ++ ["miniflare-KVNamespaceObject"]
  if w.fs.access miniflareDir then
    let nsBlobsPath := kvPath ++ [namespaceId, "blobs"]
    if w.fs.access nsBlobsPath then
      match w.fs.readdir miniflareDir with
      | none => (none, st)
      | some files =>
          let sqliteFiles := files.filter
            (fun f => jsEndsWith f ".sqlite" && !jsEndsWith f "-wal" && !jsEndsWith f "-shm")
          tryCandidates w namespaceId miniflareDir nsBlobsPath sqliteFiles st
    else (none, st)
  else (none, st)

/-- `findDatabaseForNamespace(kvPath, namespaceId)`: consult the
resolution cache first; a cached path that still exists is returned
unchanged, a stale one is dropped from the cache together with its open
handle before falling through to the full probe. -/
def findDatabaseForNamespace (w : World) (st : ProviderState) (kvPath : FilePathSegs)
    (namespaceId : String) : Option FilePathSegs × ProviderState :=
  match mapGet st.namespaceDbMapping namespaceId with
  | some cachedPath =>
      if w.fs.access cachedPath then (some cachedPath, st)
      else
        let st1 := { st with namespaceDbMapping := mapDelete st.namespaceDbMapping namespaceId }
        let st2 :=
          if cachedPath ∈ st1.dbCache then
            { st1 with dbCache := st1.dbCache.filter (fun p => ¬ p = cachedPath) }
          else st1
        probeForNamespace w st2 kvPath namespaceId
  | none => probeForNamespace w st kvPath namespaceId

/-- `path.join(workerPath, '.wrangler', 'state', 'v3', 'kv')`. -/
def kvPathOf (workerPath : FilePathSegs) : FilePathSegs :=
  workerPath ++ [".wrangler", "state", "v3", "kv"]

/-- `getKVData(workerPath, namespaceId)`: resolve the namespace and list
its entries; empty entry list when resolution fails. -/
def getKVData (w : World) (st : ProviderState) (workerPath : FilePathSegs)
    (namespaceId : String) : KVData × ProviderState :=
  let r := findDatabaseForNamespace w st (kvPathOf workerPath) namespaceId
  match r.1 with
  | none => ({ nspace := namespaceId, entries := [] }, r.2)
  | some dbPath =>
      let q := queryEntries w r.2 dbPath
      ({ nspace := namespaceId, entries := q.1 }, q.2)

/-- `getValue(workerPath, namespaceId, key)`: resolve the namespace, look
up the blob id by exact key, then read
`kvPath/namespaceId/blobs/blobId`; `null` when any step misses and on a
read error. -/
def getValue (w : World) (st : ProviderState) (workerPath : FilePathSegs)
    (namespaceId key : String) : Option String × ProviderState :=
  let kvPath := kvPathOf workerPath
  let r := findDatabaseForNamespace w st kvPath namespaceId
  match r.1 with
  | none => (none, r.2)
  | some dbPath =>
      let b := getBlobId w r.2 dbPath key
      match b.1 with
      | none => (none, b.2)
      | some blobId => (w.fs.readFile (kvPath ++ [namespaceId, "blobs", blobId]), b.2)

/-! ## KVTreeProvider search logic -/

/-- The loop body of `fuzzyMatch` (KVTreeProvider.ts lines 323-332):
scan the text left to right, advancing a cursor into the search string on
each equal character; succeed iff the cursor reaches the end. -/
def fuzzyMatchAux : List Char → List Char → Bool
  | _, [] => true
  | [], _ :: _ => false
  | t :: ts, s :: ss => if t = s then fuzzyMatchAux ts ss else fuzzyMatchAux ts (s :: ss)

/-- `fuzzyMatch(text, search)`. -/
def fuzzyMatch (text search : String) : Bool :=
  fuzzyMatchAux text.data search.data

/-- Observable outcome of processing one entry during a search pass:
whether the key fuzzy-matched, whether the entry value was fetched via
`getValue`, and whether the fetched value matched. -/
structure SearchOutcome where
  keyMatch : Bool
  valueFetched : Bool
  valueMatch : Bool
deriving Repr, DecidableEq

/-- Per-entry step of `performSearch` (KVTreeProvider.ts lines 282-299):
fuzzy-match the lower-cased key against the (already lower-cased) search
term; only in the else-branch fetch the value and test case-insensitive
substring containment.  `fetchedValue` stands for the result the
`getValue` call would deliver (`none` covers both `null` and a thrown
error, which the source swallows). -/
def performSearchEntryStep (fetchedValue : Option String) (entryKey searchTerm : String) :
    SearchOutcome :=
  if fuzzyMatch (jsToLower entryKey) searchTerm then
    { keyMatch := true, valueFetched := false, valueMatch := false }
  else
    { keyMatch := false
      valueFetched := true
      valueMatch :=
        match fetchedValue with
        | some v => jsIncludes (jsToLower v) searchTerm
        | none => false }

/-- Per-entry step of the quick-pick live search handler
(KVTreeProvider.ts lines 424-473): compute the key fuzzy match, then
unconditionally fetch the value (`// Also search in value`) and test
case-insensitive containment against the typed query. -/
def quickPickSearchEntryStep (fetchedValue : Option String) (entryKey query : String) :
    SearchOutcome :=
  let keyMatch := fuzzyMatch (jsToLower entryKey) (jsToLower query)
  let valueMatch :=
    match fetchedValue with
    | some content => jsIncludes (jsToLower content) (jsToLower query)
    | none => false
  { keyMatch := keyMatch, valueFetched := true, valueMatch := valueMatch }

/-- JS `content.substring(start, end)` at the preview call site (where
`0 <= start <= end`). -/
def jsSubstring (s : List Char) (start stop : Int) : List Char :=
  (s.take stop.toNat).drop start.toNat

/-- Global replacement of the two-character sequence backslash `n` by a
space: the effect of `.replace(/\\n/g, ' ')`, scanning left to right
without overlap. -/
def replaceEscapedNewlines : List Char → List Char
  | '\\' :: 'n' :: rest => ' ' :: replaceEscapedNewlines rest
  | c :: rest => c :: replaceEscapedNewlines rest
  | [] => []

/-- The three-character ellipsis marker. -/
def ellipsisDots : List Char := ['.', '.', '.']

/-- The value-preview construction of the quick-pick handler
(KVTreeProvider.ts lines 448-453), parametrised by the match index
(`content.toLowerCase().indexOf(query)`, nonnegative on a match) and the
query length: clamp a 20-character window around the match, collapse
escaped newlines, and add ellipsis markers at clamped boundaries. -/
def makePreview (content : List Char) (index queryLen : Nat) : List Char :=
  let start : Int := max 0 ((index : Int) - 20)
  let stop : Int := min (content.length : Int) ((index : Int) + queryLen + 20)
  let snippet := replaceEscapedNewlines (jsSubstring content start stop)
  let withPre := if 0 < start then ellipsisDots ++ snippet else snippet
  if stop < (content.length : Int) then withPre ++ ellipsisDots else withPre

/-! ## Specification-side resolution description

Used only to compare the implementation against the spec's words for the
refinement claim about full-probe resolution order. -/

/-- Modelled from the spec: "For each candidate database file, in
enumeration order: count its total entries; skip if zero; take a bounded
sample of up to 3 content-reference ids; the candidate matches iff every
sampled id exists and at least one was sampled.  The first matching
candidate (in enumeration order) is accepted."  Value-level description
of which candidate a full probe accepts. -/
def firstMatchingCandidate (w : World) (miniflareDir nsBlobsPath : FilePathSegs) :
    List String → Option FilePathSegs
  | [] => none
  | file :: rest =>
      let dbPath := miniflareDir ++ [file]
      if entryCountVal w dbPath ≠ 0 ∧
          candidateMatches w nsBlobsPath (sampleBlobIdsVal w dbPath 3) then
        some dbPath
      else firstMatchingCandidate w miniflareDir nsBlobsPath rest

/-! ## Concrete example worlds (used to instantiate the theorems) -/

/-- Example project storage root `proj/.wrangler/state/v3/kv`. -/
def exKvRoot : FilePathSegs := kvPathOf ["proj"]

/-- Example candidate directory. -/
def exMini : FilePathSegs := exKvRoot ++ ["miniflare-KVNamespaceObject"]

/-- Example candidate database path. -/
def exDb1 : FilePathSegs := exMini ++ ["db1.sqlite"]

/-- A database holding the single end-to-end entry of the spec. -/
def dbUser : Database := { rows := [{ key := "user:42", blobId := "abc123" }] }

/-- A database whose rows were inserted in key order b, a, c. -/
def dbBAC : Database :=
  { rows := [{ key := "b", blobId := "bb" }, { key := "a", blobId := "aa" },
             { key := "c", blobId := "cc" }] }

/-- A database on which every statement errors (corrupt store). -/
def dbAllFail : Database :=
  { rows := [{ key := "x", blobId := "xx" }], listFails := true, getFails := true,
    countFails := true, sampleFails := true }

/-- A database whose single row records an empty-string blob id. -/
def dbEmptyBlob : Database := { rows := [{ key := "k", blobId := "" }] }

/-- Filesystem for the happy path: candidate dir, blobs dir of namespace
`ns1` and the blob `abc123` exist; the candidate dir lists one file. -/
def fsUser : FSModel :=
  { access := fun p =>
      decide (p = exMini) || decide (p = exKvRoot ++ ["ns1", "blobs"]) ||
      decide (p = exKvRoot ++ ["ns1", "blobs", "abc123"])
    readdir := fun p => if p = exMini then some ["db1.sqlite"] else none
    readFile := fun p =>
      if p = exKvRoot ++ ["ns1", "blobs", "abc123"] then some "IDVALUE" else none }

/-- Happy-path world: one matching candidate database. -/
def wUser : World :=
  { fs := fsUser, dbs := fun p => if p = exDb1 then dbUser else { rows := [] } }

/-- A world whose filesystem grants every access, lists one candidate,
and yields readable content for every blob; the single candidate's only
row has an empty-string blob id. -/
def wEmptyBlob : World :=
  { fs :=
      { access := fun _ => true
        readdir := fun p => if p = exMini then some ["db1.sqlite"] else none
        readFile := fun _ => some "SHOULD NOT BE READ" }
    dbs := fun _ => dbEmptyBlob }

/-- A world with an entirely absent filesystem. -/
def wNothing : World :=
  { fs := { access := fun _ => false, readdir := fun _ => none, readFile := fun _ => none }
    dbs := fun _ => { rows := [] } }

/-- A world where only the blob named `x` of namespace `ns1` exists. -/
def wBlobX : World :=
  { fs :=
      { access := fun p => decide (p = exKvRoot ++ ["ns1", "blobs", "x"])
        readdir := fun _ => none
        readFile := fun _ => none }
    dbs := fun _ => { rows := [] } }

/-- A world where every statement of every database errors. -/
def wAllFail : World :=
  { fs := { access := fun _ => true, readdir := fun _ => none, readFile := fun _ => none }
    dbs := fun _ => dbAllFail }

/-- A world for listing: one candidate database with rows inserted b, a,
c; all filesystem probes succeed. -/
def wBAC : World :=
  { fs :=
      { access := fun _ => true
        readdir := fun p => if p = exMini then some ["db1.sqlite"] else none
        readFile := fun _ => none }
    dbs := fun p => if p = exDb1 then dbBAC else { rows := [] } }

/-- Provider state whose resolution cache maps `ns1` to `exDb1`. -/
def stCachedGood : ProviderState :=
  { dbCache := [], namespaceDbMapping := [("ns1", exDb1)] }

/-- Provider state whose resolution cache holds a stale path with its
handle still open. -/
def stCachedStale : ProviderState :=
  { dbCache := [["old.sqlite"]], namespaceDbMapping := [("ns1", ["old.sqlite"])] }

/-- A world where exactly the cached database path `exDb1` exists. -/
def wCacheHit : World :=
  { fs := { access := fun p => decide (p = exDb1), readdir := fun _ => none,
            readFile := fun _ => none }
    dbs := fun _ => { rows := [] } }

/-! ## Helper lemmas -/

/-- The greedy cursor scan recognises exactly the subsequences. -/
theorem fuzzyMatchAux_iff_sublist :
    ∀ ts ss : List Char, fuzzyMatchAux ts ss = true ↔ ss.Sublist ts := by
  intro ts
  induction ts with
  | nil =>
      intro ss
      cases ss with
      | nil => simp [fuzzyMatchAux]
      | cons s ss => simp [fuzzyMatchAux]
  | cons t ts ih =>
      intro ss
      cases ss with
      | nil => simp [fuzzyMatchAux, List.nil_sublist]
      | cons s ss =>
          by_cases h : t = s
          · subst h
            simp only [fuzzyMatchAux, if_pos rfl, eq_self_iff_true, if_true]
            rw [ih]
            exact (List.cons_sublist_cons).symm
          · simp only [fuzzyMatchAux, if_neg h]
            rw [ih]
            constructor
            · intro hs
              exact hs.cons t
            · intro hs
              cases hs with
              | cons _ h2 => exact h2
              | cons₂ _ h2 => exact absurd rfl h

/-- Totality of the BINARY collation. -/
theorem keyLe_total : ∀ a b : List Char, keyLe a b = true ∨ keyLe b a = true := by
  intro a
  induction a with
  | nil => intro b; left; cases b <;> simp [keyLe]
  | cons x xs ih =>
      intro b
      cases b with
      | nil => right; simp [keyLe]
      | cons y ys =>
          rcases lt_trichotomy x y with h | h | h
          · left; simp [keyLe, h]
          · subst h
            rcases ih ys with h2 | h2
            · left; simp [keyLe, lt_irrefl, h2]
            · right; simp [keyLe, lt_irrefl, h2]
          · right; simp [keyLe, h]

/-- Transitivity of the BINARY collation. -/
theorem keyLe_trans :
    ∀ a b c : List Char, keyLe a b = true → keyLe b c = true → keyLe a c = true := by
  intro a
  induction a with
  | nil => intro b c _ _; cases c <;> simp [keyLe]
  | cons x xs ih =>
      intro b c hab hbc
      cases b with
      | nil => simp [keyLe] at hab
      | cons y ys =>
          cases c with
          | nil => simp [keyLe] at hbc
          | cons z zs =>
              simp only [keyLe] at hab hbc ⊢
              by_cases hxy : x < y
              · by_cases hyz : y < z
                · simp [lt_trans hxy hyz]
                · by_cases hzy : z < y
                  · simp [hyz, hzy] at hbc
                  · have hy : y = z := le_antisymm (not_lt.mp hzy) (not_lt.mp hyz)
                    subst hy
                    simp [hxy]
              · by_cases hyx : y < x
                · simp [hxy, hyx] at hab
                · have hx : x = y := le_antisymm (not_lt.mp hyx) (not_lt.mp hxy)
                  subst hx
                  simp only [if_neg (lt_irrefl x)] at hab
                  by_cases hxz : x < z
                  · simp [hxz]
                  · by_cases hzx : z < x
                    · simp [hxz, hzx] at hbc
                    · have hz : x = z := le_antisymm (not_lt.mp hzx) (not_lt.mp hxz)
                      subst hz
                      simp only [if_neg (lt_irrefl x)] at hbc ⊢
                      exact ih ys zs hab hbc

/-- A weak inequality between distinct char lists is strict. -/
theorem keyLt_of_keyLe_of_ne :
    ∀ a b : List Char, keyLe a b = true → a ≠ b → keyLt a b = true := by
  intro a
  induction a with
  | nil =>
      intro b _ hne
      cases b with
      | nil => exact absurd rfl hne
      | cons y ys => simp [keyLt]
  | cons x xs ih =>
      intro b hab hne
      cases b with
      | nil => simp [keyLe] at hab
      | cons y ys =>
          simp only [keyLe] at hab
          simp only [keyLt]
          by_cases hxy : x < y
          · simp [hxy]
          · by_cases hyx : y < x
            · simp [hxy, hyx] at hab
            · have hx : x = y := le_antisymm (not_lt.mp hyx) (not_lt.mp hxy)
              subst hx
              simp only [if_neg (lt_irrefl x)] at hab ⊢
              have hne2 : xs ≠ ys := by
                intro hEq
                exact hne (by rw [hEq])
              exact ih ys hab hne2

/-- Inserting permutes to consing. -/
theorem insertByKey_perm (e : KVEntry) :
    ∀ l : List KVEntry, (insertByKey e l).Perm (e :: l) := by
  intro l
  induction l with
  | nil => simp [insertByKey]
  | cons x xs ih =>
      simp only [insertByKey]
      by_cases h : keyLe e.key.data x.key.data = true
      · simp [h]
      · simp only [h, if_false, Bool.false_eq_true]
        exact (ih.cons x).trans (List.Perm.swap e x xs)

/-- The listing sort is a permutation of the stored rows. -/
theorem sortByKey_perm : ∀ l : List KVEntry, (sortByKey l).Perm l := by
  intro l
  induction l with
  | nil => simp [sortByKey]
  | cons x xs ih =>
      simp only [sortByKey]
      exact (insertByKey_perm x (sortByKey xs)).trans (ih.cons x)

/-- Inserting into a key-sorted list keeps it key-sorted. -/
theorem insertByKey_pairwise (e : KVEntry) :
    ∀ l : List KVEntry,
      l.Pairwise (fun a b => keyLe a.key.data b.key.data = true) →
      (insertByKey e l).Pairwise (fun a b => keyLe a.key.data b.key.data = true) := by
  intro l
  induction l with
  | nil => intro _; simp [insertByKey]
  | cons x xs ih =>
      intro hl
      rcases List.pairwise_cons.mp hl with ⟨hx, hxs⟩
      by_cases h : keyLe e.key.data x.key.data = true
      · simp only [insertByKey, if_pos h]
        refine List.pairwise_cons.mpr ⟨?_, hl⟩
        intro b hb
        rcases List.mem_cons.mp hb with rfl | hb2
        · exact h
        · exact keyLe_trans _ _ _ h (hx b hb2)
      · simp only [insertByKey, h, if_false, Bool.false_eq_true]
        refine List.pairwise_cons.mpr ⟨?_, ih hxs⟩
        intro b hb
        have hxe : keyLe x.key.data e.key.data = true := by
          rcases keyLe_total e.key.data x.key.data with h1 | h1
          · exact absurd h1 h
          · exact h1
        have hmem : b ∈ e :: xs := (insertByKey_perm e xs).mem_iff.mp hb
        rcases List.mem_cons.mp hmem with rfl | hb2
        · exact hxe
        · exact hx b hb2

/-- The listing sort is key-sorted. -/
theorem sortByKey_pairwise :
    ∀ l : List KVEntry,
      (sortByKey l).Pairwise (fun a b => keyLe a.key.data b.key.data = true) := by
  intro l
  induction l with
  | nil => simp [sortByKey]
  | cons x xs ih => exact insertByKey_pairwise x (sortByKey xs) ih

/-- After deleting a key it can no longer be looked up. -/
theorem mapGet_mapDelete (m : List (String × FilePathSegs)) (k : String) :
    mapGet (mapDelete m k) k = none := by
  unfold mapGet mapDelete
  rw [List.find?_eq_none.mpr]
  · rfl
  · intro x hx
    have hmem := List.mem_filter.mp hx
    simpa using hmem.2

/-- Opening a handle does not touch the resolution cache. -/
theorem getDatabase_mapping (st : ProviderState) (p : FilePathSegs) :
    (getDatabase st p).namespaceDbMapping = st.namespaceDbMapping := by
  unfold getDatabase
  by_cases h : p ∈ st.dbCache <;> simp [h]

/-- The sampling loop matches all checked samples iff every sample's
blob file exists. -/
theorem checkBlobs_eq_iff (w : World) (p : FilePathSegs) :
    ∀ samples : List String,
      ((checkBlobs w p samples).1 = (checkBlobs w p samples).2 ↔
        ∀ b ∈ samples, w.fs.access (p ++ [b]) = true) := by
  intro samples
  induction samples with
  | nil => simp [checkBlobs]
  | cons b rest ih =>
      cases haccess : w.fs.access (p ++ [b]) with
      | true => simp [checkBlobs, haccess, ih]
      | false => simp [checkBlobs, haccess]

/-- The sampling loop checks at least one sample of a nonempty list. -/
theorem checkBlobs_snd_pos (w : World) (p : FilePathSegs) (b : String) (rest : List String) :
    (checkBlobs w p (b :: rest)).2 ≠ 0 := by
  cases haccess : w.fs.access (p ++ [b]) with
  | true => simp [checkBlobs, haccess]
  | false => simp [checkBlobs, haccess]

/-- The acceptance test of the candidate loop, characterised. -/
theorem candidateMatches_iff (w : World) (p : FilePathSegs) (samples : List String) :
    candidateMatches w p samples = true ↔
      samples ≠ [] ∧ ∀ b ∈ samples, w.fs.access (p ++ [b]) = true := by
  cases samples with
  | nil => simp [candidateMatches, checkBlobs]
  | cons b rest =>
      unfold candidateMatches
      simp only [Bool.and_eq_true, beq_iff_eq, decide_eq_true_eq]
      constructor
      · rintro ⟨h1, -⟩
        exact ⟨by simp, (checkBlobs_eq_iff w p (b :: rest)).mp h1⟩
      · rintro ⟨-, hall⟩
        have heq := (checkBlobs_eq_iff w p (b :: rest)).mpr hall
        have hne := checkBlobs_snd_pos w p b rest
        exact ⟨heq, by omega⟩

/-- The candidate loop returns exactly the first matching candidate of
the spec-side description, independent of the starting cache state. -/
theorem tryCandidates_fst (w : World) (ns : String) (mdir bpath : FilePathSegs) :
    ∀ (files : List String) (st : ProviderState),
      (tryCandidates w ns mdir bpath files st).1 =
        firstMatchingCandidate w mdir bpath files := by
  intro files
  induction files with
  | nil => intro st; simp [tryCandidates, firstMatchingCandidate]
  | cons f rest ih =>
      intro st
      simp only [tryCandidates, firstMatchingCandidate, getEntryCount, getSampleBlobIds]
      by_cases hc : entryCountVal w (mdir ++ [f]) = 0
      · simp [hc, ih]
      · cases hm : candidateMatches w bpath (sampleBlobIdsVal w (mdir ++ [f]) 3) with
        | true => simp [hc, hm]
        | false => simp [hc, hm, ih]

/-- Cache effect of the candidate loop: on failure the resolution cache
is untouched; on success exactly the accepted mapping is stored. -/
theorem tryCandidates_mapping (w : World) (ns : String) (mdir bpath : FilePathSegs) :
    ∀ (files : List String) (st : ProviderState),
      ((tryCandidates w ns mdir bpath files st).1 = none →
        (tryCandidates w ns mdir bpath files st).2.namespaceDbMapping =
          st.namespaceDbMapping) ∧
      (∀ p, (tryCandidates w ns mdir bpath files st).1 = some p →
        (tryCandidates w ns mdir bpath files st).2.namespaceDbMapping =
          mapSet st.namespaceDbMapping ns p) := by
  intro files
  induction files with
  | nil => intro st; simp [tryCandidates]
  | cons f rest ih =>
      intro st
      simp only [tryCandidates, getEntryCount, getSampleBlobIds]
      by_cases hc : entryCountVal w (mdir ++ [f]) = 0
      · simpa [hc, getDatabase_mapping] using ih (getDatabase st (mdir ++ [f]))
      · cases hm : candidateMatches w bpath (sampleBlobIdsVal w (mdir ++ [f]) 3) with
        | true => simp [hc, hm, getDatabase_mapping]
        | false =>
            simpa [hc, hm, getDatabase_mapping] using
              ih (getDatabase (getDatabase st (mdir ++ [f])) (mdir ++ [f]))

/-! ## Claim theorems -/

/-- C1: for every candidate probed during resolution, the candidate
matches the namespace iff at least one content-reference id was sampled
and every sampled id (checked in order, stopping at the first miss)
exists under the namespace blobs directory; in particular a candidate
whose first sampled id is missing never matches, and a candidate with
zero extractable samples never matches. -/
theorem C1_candidate_match_iff (w : World) (nsBlobsPath : FilePathSegs)
    (samples : List String) :
    (candidateMatches w nsBlobsPath samples = true ↔
      samples ≠ [] ∧ ∀ b ∈ samples, w.fs.access (nsBlobsPath ++ [b]) = true) ∧
    (∀ b rest, samples = b :: rest → w.fs.access (nsBlobsPath ++ [b]) = false →
      candidateMatches w nsBlobsPath samples = false) ∧
    (samples = [] → candidateMatches w nsBlobsPath samples = false) := by
  refine ⟨candidateMatches_iff w nsBlobsPath samples, ?_, ?_⟩
  · rintro b rest rfl hmiss
    cases h : candidateMatches w nsBlobsPath (b :: rest) with
    | false => rfl
    | true =>
        have hall := ((candidateMatches_iff w nsBlobsPath (b :: rest)).mp h).2 b (by simp)
        rw [hall] at hmiss
        exact absurd hmiss (by simp)
  · rintro rfl
    simp [candidateMatches, checkBlobs]

/-- Closed instance of C1: in a world where only blob `x` of namespace
`ns1` exists, the sample list `[x]` matches and a sample list whose
first id `y` is missing does not. -/
theorem C1_candidate_match_iff_witness :
    candidateMatches wBlobX (exKvRoot ++ ["ns1", "blobs"]) ["x"] = true ∧
    candidateMatches wBlobX (exKvRoot ++ ["ns1", "blobs"]) ["y", "x"] = false := by
  constructor
  · exact (C1_candidate_match_iff wBlobX (exKvRoot ++ ["ns1", "blobs"]) ["x"]).1.mpr
      ⟨by decide, by decide⟩
  · exact (C1_candidate_match_iff wBlobX (exKvRoot ++ ["ns1", "blobs"]) ["y", "x"]).2.1
      "y" ["x"] rfl (by decide)

/-- C7: the fuzzy key match succeeds iff every character of the query
appears in the text in order (subsequence); query `ab` matches `xaxbx`
but neither `ba` nor `xx`, and the empty query matches every text. -/
theorem C7_fuzzyMatch_subsequence :
    (∀ text search : String,
      fuzzyMatch text search = true ↔ search.data.Sublist text.data) ∧
    fuzzyMatch "xaxbx" "ab" = true ∧
    fuzzyMatch "ba" "ab" = false ∧
    fuzzyMatch "xx" "ab" = false ∧
    (∀ text : String, fuzzyMatch text "" = true) := by
  refine ⟨?_, by decide, by decide, by decide, ?_⟩
  · intro text search
    exact fuzzyMatchAux_iff_sublist text.data search.data
  · intro text
    have h : ("" : String).data = [] := rfl
    unfold fuzzyMatch
    rw [h]
    cases text.data <;> simp [fuzzyMatchAux]

/-- C8 counterexample: in the quick-pick live search handler the value is
fetched for an entry whose key already fuzzy-matched the query, refuting
the claim that during search the value is never fetched when the key
matches. -/
theorem C8_counterexample_quickpick_fetches :
    (quickPickSearchEntryStep (some "v") "ab" "ab").keyMatch = true ∧
    (quickPickSearchEntryStep (some "v") "ab" "ab").valueFetched = true := by
  constructor <;> decide

/-- C8 (amended): in `performSearch` the value is fetched exactly when
the key did not fuzzy-match (never fetched on a key match), while the
quick-pick live search handler fetches the value for every entry
regardless of the key-match outcome. -/
theorem C8_amended_fetch_policy (fetchedValue : Option String)
    (entryKey searchTerm query : String) :
    ((performSearchEntryStep fetchedValue entryKey searchTerm).keyMatch = true →
      (performSearchEntryStep fetchedValue entryKey searchTerm).valueFetched = false) ∧
    ((performSearchEntryStep fetchedValue entryKey searchTerm).keyMatch = false →
      (performSearchEntryStep fetchedValue entryKey searchTerm).valueFetched = true) ∧
    (quickPickSearchEntryStep fetchedValue entryKey query).valueFetched = true := by
  unfold performSearchEntryStep quickPickSearchEntryStep
  cases h : fuzzyMatch (jsToLower entryKey) searchTerm <;> simp [h]

/-- Closed instance of C8 (amended): on a key match `performSearch` skips
the fetch, on a key miss it fetches. -/
theorem C8_amended_fetch_policy_witness :
    (performSearchEntryStep (some "v") "ab" "ab").valueFetched = false ∧
    (performSearchEntryStep (some "v") "zz" "ab").valueFetched = true := by
  constructor
  · exact (C8_amended_fetch_policy (some "v") "ab" "ab" "q").1 (by decide)
  · exact (C8_amended_fetch_policy (some "v") "zz" "ab" "q").2.1 (by decide)

/-- C9: on a value match at index `i` with query length `L` in a value of
length `N`, the preview is the substring from `max 0 (i - 20)` to
`min N (i + L + 20)` with every backslash-n escape replaced by a space,
prefixed with an ellipsis iff the snippet starts after position 0 and
suffixed with an ellipsis iff it ends before the value's end. -/
theorem C9_preview_construction (content : List Char) (index queryLen : Nat)
    (hq : 0 < queryLen) (hm : index + queryLen ≤ content.length) :
    makePreview content index queryLen =
      (if 0 < index - 20 then ellipsisDots else []) ++
      replaceEscapedNewlines
        ((content.take (min content.length (index + queryLen + 20))).drop (index - 20)) ++
      (if min content.length (index + queryLen + 20) < content.length
        then ellipsisDots else []) := by
  simp only [makePreview, jsSubstring]
  have hstart : (max 0 ((index : Int) - 20)).toNat = index - 20 := by omega
  have hstop : (min (content.length : Int) ((index : Int) + queryLen + 20)).toNat
      = min content.length (index + queryLen + 20) := by omega
  have hc1 : (0 < max 0 ((index : Int) - 20)) ↔ 0 < index - 20 := by omega
  have hc2 : (min (content.length : Int) ((index : Int) + queryLen + 20)
      < (content.length : Int)) ↔
      min content.length (index + queryLen + 20) < content.length := by omega
  rw [hstart, hstop]
  by_cases h1 : 0 < index - 20 <;>
    by_cases h2 : min content.length (index + queryLen + 20) < content.length <;>
      simp [hc1, hc2, h1, h2, List.append_assoc]

/-- Closed instance of C9 at the spec's own example: value
`the quick brown fox jumps`, query `brown` (match index 10, length 5):
the snippet covers the whole value and carries no ellipsis. -/
theorem C9_preview_construction_witness :
    makePreview "the quick brown fox jumps".data 10 5 =
      "the quick brown fox jumps".data := by
  have h := C9_preview_construction "the quick brown fox jumps".data 10 5
    (by decide) (by decide)
  rw [h]
  decide

/-- C10: when the resolved database holds a row for the key whose stored
blob id is the empty string, `getValue` returns null — the empty string
is coerced to null by the lookup (`row?.blobId || null`), so no blob
file is consulted (the conclusion holds for every `readFile`). -/
theorem C10_empty_blobId_yields_null (w : World) (st : ProviderState)
    (workerPath : FilePathSegs) (namespaceId key : String)
    (dbPath : FilePathSegs) (row : KVEntry)
    (hfind : (findDatabaseForNamespace w st (kvPathOf workerPath) namespaceId).1 =
      some dbPath)
    (hok : (w.dbs dbPath).getFails = false)
    (hrow : (w.dbs dbPath).rows.find? (fun e => e.key = key) = some row)
    (hempty : row.blobId = "") :
    (getValue w st workerPath namespaceId key).1 = none := by
  have hb : blobIdVal w dbPath key = none := by
    unfold blobIdVal sqlGetByKey
    rw [hok]
    simp [hrow, hempty]
  simp only [getValue]
  rw [hfind]
  simp [getBlobId, hb]

/-- Closed instance of C10: in a world whose only candidate row maps key
`k` to the empty blob id, and whose filesystem would happily serve any
blob file, `getValue` still returns null. -/
theorem C10_empty_blobId_yields_null_witness :
    (getValue wEmptyBlob {} ["proj"] "ns1" "k").1 = none := by
  exact C10_empty_blobId_yields_null wEmptyBlob {} ["proj"] "ns1" "k" exDb1
    { key := "k", blobId := "" } (by decide) (by decide) (by decide) (by decide)

/-- C5: no query operation rejects on a database failure — listing
degrades to the empty sequence, key lookup to null, counting to 0 and
sampling to the empty list. -/
theorem C5_query_failures_degrade (w : World) (st : ProviderState)
    (dbPath : FilePathSegs) (key : String) :
    ((w.dbs dbPath).listFails = true → (queryEntries w st dbPath).1 = []) ∧
    ((w.dbs dbPath).getFails = true → (getBlobId w st dbPath key).1 = none) ∧
    ((w.dbs dbPath).countFails = true → (getEntryCount w st dbPath).1 = 0) ∧
    ((w.dbs dbPath).sampleFails = true → (getSampleBlobIds w st dbPath 3).1 = []) := by
  refine ⟨?_, ?_, ?_, ?_⟩ <;> intro h <;>
    simp [queryEntries, queryEntriesVal, sqlSelectAllOrderByKey,
      getBlobId, blobIdVal, sqlGetByKey, getEntryCount, entryCountVal, sqlCount,
      getSampleBlobIds, sampleBlobIdsVal, sqlSampleBlobIds, h]

/-- Closed instance of C5 on a database where every statement errors. -/
theorem C5_query_failures_degrade_witness :
    (queryEntries wAllFail {} exDb1).1 = [] ∧
    (getBlobId wAllFail {} exDb1 "x").1 = none ∧
    (getEntryCount wAllFail {} exDb1).1 = 0 ∧
    (getSampleBlobIds wAllFail {} exDb1 3).1 = [] := by
  have h := C5_query_failures_degrade wAllFail {} exDb1 "x"
  exact ⟨h.1 (by decide), h.2.1 (by decide), h.2.2.1 (by decide), h.2.2.2 (by decide)⟩

/-- C6: listing a database whose query succeeds returns exactly its rows
(a permutation of the stored table) in strictly ascending key order; on
the concrete database whose rows were inserted in key order b, a, c the
listing is a, b, c. -/
theorem C6_listEntries_sorted (w : World) (st : ProviderState) (dbPath : FilePathSegs)
    (hok : (w.dbs dbPath).listFails = false)
    (hnd : ((w.dbs dbPath).rows.map (fun e => e.key)).Nodup) :
    ((queryEntries w st dbPath).1).Perm (w.dbs dbPath).rows ∧
    ((queryEntries w st dbPath).1).Pairwise
      (fun a b => keyLt a.key.data b.key.data = true) ∧
    ((queryEntries wBAC {} exDb1).1).map (fun e => e.key) = ["a", "b", "c"] := by
  have hval : (queryEntries w st dbPath).1 = sortByKey (w.dbs dbPath).rows := by
    simp [queryEntries, queryEntriesVal, sqlSelectAllOrderByKey, hok]
  rw [hval]
  refine ⟨sortByKey_perm _, ?_, by decide⟩
  have hper := sortByKey_perm (w.dbs dbPath).rows
  have hnd2 : ((sortByKey (w.dbs dbPath).rows).map (fun e => e.key)).Nodup :=
    ((hper.map (fun e => e.key)).nodup_iff).mpr hnd
  have hpw1 := sortByKey_pairwise (w.dbs dbPath).rows
  have hpw2 : (sortByKey (w.dbs dbPath).rows).Pairwise (fun a b => a.key ≠ b.key) :=
    List.pairwise_map.mp hnd2
  exact (hpw1.and hpw2).imp
    (fun h => keyLt_of_keyLe_of_ne _ _ h.1 (fun hd => h.2 (String.ext hd)))

/-- Closed instance of C6 on the b, a, c database. -/
theorem C6_listEntries_sorted_witness :
    ((queryEntries wBAC {} exDb1).1).Perm (wBAC.dbs exDb1).rows ∧
    ((queryEntries wBAC {} exDb1).1).Pairwise
      (fun a b => keyLt a.key.data b.key.data = true) := by
  have h := C6_listEntries_sorted wBAC {} exDb1 (by decide) (by decide)
  exact ⟨h.1, h.2.1⟩

/-- C4: when the candidate-database directory or the namespace blobs
directory is absent (and no cache entry short-circuits the probe),
resolution reports not-found, `getKVData` returns an empty entry list
and `getValue` returns null; every operation is total, so no exception
crosses the public contract. -/
theorem C4_absent_dirs_degrade (w : World) (st : ProviderState)
    (workerPath : FilePathSegs) (namespaceId key : String)
    (hnc : mapGet st.namespaceDbMapping namespaceId = none)
    (habs : w.fs.access (kvPathOf workerPath ++ ["miniflare-KVNamespaceObject"]) = false ∨
            w.fs.access (kvPathOf workerPath ++ [namespaceId, "blobs"]) = false) :
    (findDatabaseForNamespace w st (kvPathOf workerPath) namespaceId).1 = none ∧
    (getKVData w st workerPath namespaceId).1.entries = [] ∧
    (getValue w st workerPath namespaceId key).1 = none := by
  have hfind : (findDatabaseForNamespace w st (kvPathOf workerPath) namespaceId).1 = none := by
    unfold findDatabaseForNamespace probeForNamespace
    rw [hnc]
    rcases habs with h | h
    · simp [h]
    · cases h2 : w.fs.access (kvPathOf workerPath ++ ["miniflare-KVNamespaceObject"]) <;>
        simp [h2, h]
  refine ⟨hfind, ?_, ?_⟩
  · simp only [getKVData]
    rw [hfind]
  · simp only [getValue]
    rw [hfind]

/-- Closed instance of C4 in a world with an entirely absent
filesystem. -/
theorem C4_absent_dirs_degrade_witness :
    (getKVData wNothing {} ["proj"] "ns1").1.entries = [] ∧
    (getValue wNothing {} ["proj"] "ns1" "k").1 = none := by
  have h := C4_absent_dirs_degrade wNothing {} ["proj"] "ns1" "k" (by decide)
    (Or.inl (by decide))
  exact ⟨h.2.1, h.2.2⟩

/-- C3: with an existing cache entry, resolution returns the cached path
unchanged (state untouched, no probing) whenever that path still exists;
when it no longer exists, the cache entry is removed, the open handle for
that path is evicted from the handle cache, and the full probe runs on
the evicted state (so a not-found outcome is exactly the probe's). -/
theorem C3_cached_entry (w : World) (st : ProviderState) (kvPath : FilePathSegs)
    (namespaceId : String) (cachedPath : FilePathSegs)
    (hc : mapGet st.namespaceDbMapping namespaceId = some cachedPath) :
    (w.fs.access cachedPath = true →
      findDatabaseForNamespace w st kvPath namespaceId = (some cachedPath, st)) ∧
    (w.fs.access cachedPath = false →
      mapGet (mapDelete st.namespaceDbMapping namespaceId) namespaceId = none ∧
      cachedPath ∉ st.dbCache.filter (fun p => ¬ p = cachedPath) ∧
      findDatabaseForNamespace w st kvPath namespaceId =
        probeForNamespace w
          { dbCache := st.dbCache.filter (fun p => ¬ p = cachedPath)
            namespaceDbMapping := mapDelete st.namespaceDbMapping namespaceId }
          kvPath namespaceId) := by
  constructor
  · intro ha
    unfold findDatabaseForNamespace
    rw [hc]
    simp [ha]
  · intro ha
    refine ⟨mapGet_mapDelete _ _, by simp [List.mem_filter], ?_⟩
    unfold findDatabaseForNamespace
    rw [hc]
    simp only [ha, Bool.false_eq_true, if_false]
    by_cases hmem : cachedPath ∈ st.dbCache
    · simp [hmem]
    · have hfe : st.dbCache.filter (fun p => ¬ p = cachedPath) = st.dbCache :=
        List.filter_eq_self.mpr (by
          intro a haMem
          simp only [decide_eq_true_eq]
          intro heq
          exact hmem (heq ▸ haMem))
      rw [hfe]
      simp [hmem]

/-- Closed instance of C3: a cache hit returns the cached path with the
state unchanged, and a stale cache entry makes resolution fall through to
the probe on the evicted state. -/
theorem C3_cached_entry_witness :
    findDatabaseForNamespace wCacheHit stCachedGood exKvRoot "ns1" =
      (some exDb1, stCachedGood) ∧
    findDatabaseForNamespace wUser stCachedStale exKvRoot "ns1" =
      probeForNamespace wUser
        { dbCache := stCachedStale.dbCache.filter (fun p => ¬ p = ["old.sqlite"])
          namespaceDbMapping := mapDelete stCachedStale.namespaceDbMapping "ns1" }
        exKvRoot "ns1" := by
  constructor
  · exact (C3_cached_entry wCacheHit stCachedGood exKvRoot "ns1" exDb1 (by decide)).1
      (by decide)
  · exact ((C3_cached_entry wUser stCachedStale exKvRoot "ns1" ["old.sqlite"]
      (by decide)).2 (by decide)).2.2

/-- C2: with no usable cache entry and both directories present, the full
probe returns exactly the first matching candidate of the spec-side
enumeration-order description; on a match exactly that mapping is stored
in the resolution cache, and when no candidate matches the resolution
cache is left unchanged (so the next call re-probes). -/
theorem C2_full_probe (w : World) (st : ProviderState) (kvPath : FilePathSegs)
    (namespaceId : String) (files : List String)
    (hnc : mapGet st.namespaceDbMapping namespaceId = none)
    (hmf : w.fs.access (kvPath ++ ["miniflare-KVNamespaceObject"]) = true)
    (hns : w.fs.access (kvPath ++ [namespaceId, "blobs"]) = true)
    (hrd : w.fs.readdir (kvPath ++ ["miniflare-KVNamespaceObject"]) = some files) :
    (findDatabaseForNamespace w st kvPath namespaceId).1 =
      firstMatchingCandidate w (kvPath ++ ["miniflare-KVNamespaceObject"])
        (kvPath ++ [namespaceId, "blobs"])
        (files.filter fun f =>
          jsEndsWith f ".sqlite" && !jsEndsWith f "-wal" && !jsEndsWith f "-shm") ∧
    (∀ p, (findDatabaseForNamespace w st kvPath namespaceId).1 = some p →
      (findDatabaseForNamespace w st kvPath namespaceId).2.namespaceDbMapping =
        mapSet st.namespaceDbMapping namespaceId p) ∧
    ((findDatabaseForNamespace w st kvPath namespaceId).1 = none →
      (findDatabaseForNamespace w st kvPath namespaceId).2.namespaceDbMapping =
        st.namespaceDbMapping) := by
  have hfind : findDatabaseForNamespace w st kvPath namespaceId =
      tryCandidates w namespaceId (kvPath ++ ["miniflare-KVNamespaceObject"])
        (kvPath ++ [namespaceId, "blobs"])
        (files.filter fun f =>
          jsEndsWith f ".sqlite" && !jsEndsWith f "-wal" && !jsEndsWith f "-shm") st := by
    unfold findDatabaseForNamespace probeForNamespace
    rw [hnc]
    simp [hmf, hns, hrd]
  rw [hfind]
  exact ⟨tryCandidates_fst w namespaceId _ _ _ st,
    (tryCandidates_mapping w namespaceId _ _ _ st).2,
    (tryCandidates_mapping w namespaceId _ _ _ st).1⟩

/-- Closed instance of C2 in the happy-path world: resolution returns
the first (only) matching candidate and caches exactly that mapping. -/
theorem C2_full_probe_witness :
    (findDatabaseForNamespace wUser {} exKvRoot "ns1").1 =
      firstMatchingCandidate wUser (exKvRoot ++ ["miniflare-KVNamespaceObject"])
        (exKvRoot ++ ["ns1", "blobs"])
        ((["db1.sqlite"] : List String).filter fun f =>
          jsEndsWith f ".sqlite" && !jsEndsWith f "-wal" && !jsEndsWith f "-shm") ∧
    (findDatabaseForNamespace wUser {} exKvRoot "ns1").2.namespaceDbMapping =
      mapSet ({} : ProviderState).namespaceDbMapping "ns1" exDb1 := by
  have h := C2_full_probe wUser {} exKvRoot "ns1" ["db1.sqlite"]
    (by decide) (by decide) (by decide) (by decide)
  exact ⟨h.1, h.2.1 exDb1 (by decide)⟩
